/-
Verification of the repository-scraper pipeline (AR and BR variants).

This development shallowly embeds the store, harvester, and downloader
logic of the two scraper variants:
  * `BR/database_manager_br.py`  (items and files tables, upserts)
  * `AR/scraper.py`              (DatabaseManager, OAIHarvester,
                                  ResourceDownloader, Scraper.run)
  * `BR/oai_harvester_br.py`     (harvest_repository, _parse_record)
  * `BR/resource_downloader_br.py` (download_resource, cleanup)

SQLite tables are modelled as lists of rows threaded through each
operation; machine I/O (HTTP responses, filesystem contents) is passed
in as explicit data so the control flow of the source functions can be
reproduced exactly.
-/
import Mathlib

set_option linter.unnecessarySimpa false

namespace Scraper

/-- Python truthiness of an optional string: `None` and `""` are falsy.
Used by the guards `if not oai_identifier and not item_page_url` and
`if existing_db_path and ...` in the source. -/
def truthy : Option String → Bool
  | none => false
  | some s => !s.isEmpty

/-! ## BR items table (`database_manager_br.py`) -/

/-- One row of the BR `items` table (key and status columns; the free
metadata columns `title`, `abstract`, ... are not part of the modelled
projection since no claim mentions them). -/
structure ItemRowBR where
  item_id : Nat
  repository_source : String
  oai_identifier : Option String
  item_page_url : Option String
  processing_status : String
  deriving Repr, DecidableEq

/-- The BR `items` table: rows plus the AUTOINCREMENT counter. -/
structure ItemsBR where
  rows : List ItemRowBR
  nextId : Nat
  deriving Repr, DecidableEq

/-- Empty BR items table; SQLite AUTOINCREMENT ids start at 1. -/
def ItemsBR.empty : ItemsBR := ⟨[], 1⟩

/-- `SELECT item_id FROM items WHERE oai_identifier = ?` (non-null param). -/
def ItemsBR.findByOai (db : ItemsBR) (oid : String) : Option ItemRowBR :=
  db.rows.find? (fun r => r.oai_identifier == some oid)

/-- `SELECT item_id FROM items WHERE item_page_url = ?` (non-null param). -/
def ItemsBR.findByUrl (db : ItemsBR) (url : String) : Option ItemRowBR :=
  db.rows.find? (fun r => r.item_page_url == some url)

/-- The two-step lookup of `DatabaseManagerBR.get_or_create_item`:
first by `oai_identifier` when provided, then by `item_page_url`. -/
def ItemsBR.lookupItem (db : ItemsBR) (oid url : Option String) : Option ItemRowBR :=
  let byOai := match oid with
    | some o => if truthy (some o) then db.findByOai o else none
    | none => none
  match byOai with
  | some r => some r
  | none =>
    match url with
    | some u => if truthy (some u) then db.findByUrl u else none
    | none => none

/-- `DatabaseManagerBR.get_or_create_item`.  Returns
`((item_id?, is_new_item), db')`.  When both keys are falsy it returns
`(none, false)` without touching the table; when an existing row is
found it returns its id with `is_new_item = false` and leaves the table
unchanged (the status-reset UPDATE in the source is commented out);
otherwise it inserts a fresh row with the given `initial_status`. -/
def getOrCreateItemBR (db : ItemsBR) (repository_source : String)
    (oai_identifier item_page_url : Option String) (initial_status : String) :
    (Option Nat × Bool) × ItemsBR :=
  if !truthy oai_identifier && !truthy item_page_url then
    ((none, false), db)
  else
    match db.lookupItem oai_identifier item_page_url with
    | some r => ((some r.item_id, false), db)
    | none =>
      let row : ItemRowBR :=
        ⟨db.nextId, repository_source, oai_identifier, item_page_url, initial_status⟩
      ((some db.nextId, true), ⟨db.rows ++ [row], db.nextId + 1⟩)

/-- `DatabaseManagerBR.update_item_status`: unconditional status UPDATE
keyed on `item_id`. -/
def updateItemStatusBR (db : ItemsBR) (itemId : Nat) (status : String) : ItemsBR :=
  ⟨db.rows.map (fun r =>
      if r.item_id == itemId then { r with processing_status := status } else r),
    db.nextId⟩

/-! ## AR items table (`AR/scraper.py`, class DatabaseManager) -/

/-- One row of the AR `items` table (modelled projection: key columns
and `processing_status`; `metadata_json` and `download_status` are not
read by any claim). -/
structure ItemRowAR where
  item_id : Nat
  item_page_url : String
  oai_identifier : Option String
  discovery_mode : String
  search_keyword : Option String
  processing_status : String
  deriving Repr, DecidableEq

/-- The AR `items` table. -/
structure ItemsAR where
  rows : List ItemRowAR
  nextId : Nat
  deriving Repr, DecidableEq

def ItemsAR.empty : ItemsAR := ⟨[], 1⟩

/-- `SELECT item_id, processing_status FROM items WHERE item_page_url = ?`. -/
def ItemsAR.findByUrl (db : ItemsAR) (url : String) : Option ItemRowAR :=
  db.rows.find? (fun r => r.item_page_url == url)

/-- `DatabaseManager.get_or_create_item_by_url` (AR).  If a row with the
URL exists and its stored status differs from the requested
`processing_status`, the source UPDATEs the stored status to the
requested one ("Esto permite 'resetear' un ítem"); it returns
`(item_id?, current_status?)`. -/
def getOrCreateItemByUrlAR (db : ItemsAR) (item_page_url processing_status discovery_mode : String)
    (oai_identifier search_keyword : Option String) :
    (Option Nat × Option String) × ItemsAR :=
  match db.findByUrl item_page_url with
  | some r =>
    if r.processing_status ≠ processing_status then
      let db' : ItemsAR :=
        ⟨db.rows.map (fun q =>
            if q.item_id == r.item_id then { q with processing_status := processing_status } else q),
          db.nextId⟩
      ((some r.item_id, some processing_status), db')
    else
      ((some r.item_id, some r.processing_status), db)
  | none =>
    let row : ItemRowAR :=
      ⟨db.nextId, item_page_url, oai_identifier, discovery_mode, search_keyword, processing_status⟩
    ((some db.nextId, some processing_status), ⟨db.rows ++ [row], db.nextId + 1⟩)

/-! ## BR files table (`database_manager_br.py`, log_file_download) -/

/-- SQL equality on a nullable column against a nullable parameter:
`NULL = x` is never true in SQLite, so two `none`s do not match. -/
def sqlEq : Option String → Option String → Bool
  | some a, some b => a == b
  | _, _ => false

/-- One row of the BR `files` table.  `download_timestamp` is modelled
as an optional clock value (`datetime.utcnow()` passed in as `now`). -/
structure FileRowBR where
  file_id : Nat
  item_id : Nat
  file_type : String
  file_url : Option String
  local_path : Option String
  download_status : String
  md5_hash : Option String
  file_size_bytes : Option Nat
  download_timestamp : Option Nat
  deriving Repr, DecidableEq

/-- The BR `files` table. -/
structure FilesBR where
  rows : List FileRowBR
  nextId : Nat
  deriving Repr, DecidableEq

def FilesBR.empty : FilesBR := ⟨[], 1⟩

/-- `SELECT file_id FROM files WHERE local_path = ? AND item_id = ? AND file_type = ?`. -/
def FilesBR.findByPath (db : FilesBR) (localPath : Option String) (itemId : Nat)
    (fileType : String) : Option FileRowBR :=
  db.rows.find? (fun r =>
    sqlEq r.local_path localPath && r.item_id == itemId && r.file_type == fileType)

/-- `SELECT file_id FROM files WHERE item_id = ? AND file_type = ? AND file_url = ?`. -/
def FilesBR.findByUrl (db : FilesBR) (itemId : Nat) (fileType : String)
    (fileUrl : Option String) : Option FileRowBR :=
  db.rows.find? (fun r =>
    r.item_id == itemId && r.file_type == fileType && sqlEq r.file_url fileUrl)

/-- `DatabaseManagerBR.log_file_download`.  Updates the row matched by
`(local_path, item_id, file_type)`, else the row matched by
`(item_id, file_type, file_url)` unless the status being recorded is
`skipped_exist`, else INSERTs a fresh row.  `download_timestamp` is set
to `now` exactly when `download_status` is `FILE_DOWNLOAD_SUCCESS`
(`"success"`).  An INSERT violating the UNIQUE(local_path) constraint
raises IntegrityError, which the source catches with a rollback and a
`None` return. -/
def logFileDownloadBR (db : FilesBR) (now : Nat) (itemId : Nat) (fileType : String)
    (fileUrl localPath : Option String) (downloadStatus : String)
    (md5Hash : Option String) (fileSizeBytes : Option Nat) : Option Nat × FilesBR :=
  let ts : Option Nat := if downloadStatus == "success" then some now else none
  match db.findByPath localPath itemId fileType with
  | some r =>
    let db' : FilesBR :=
      ⟨db.rows.map (fun q =>
          if q.file_id == r.file_id then
            { q with file_url := fileUrl, download_status := downloadStatus,
                     md5_hash := md5Hash, file_size_bytes := fileSizeBytes,
                     download_timestamp := ts }
          else q),
        db.nextId⟩
    (some r.file_id, db')
  | none =>
    match db.findByUrl itemId fileType fileUrl with
    | some r =>
      if downloadStatus ≠ "skipped_exist" then
        let db' : FilesBR :=
          ⟨db.rows.map (fun q =>
              if q.file_id == r.file_id then
                { q with local_path := localPath, download_status := downloadStatus,
                         md5_hash := md5Hash, file_size_bytes := fileSizeBytes,
                         download_timestamp := ts }
              else q),
            db.nextId⟩
        (some r.file_id, db')
      else
        if db.rows.any (fun q => sqlEq q.local_path localPath) then
          (none, db)
        else
          (some db.nextId,
            ⟨db.rows ++ [⟨db.nextId, itemId, fileType, fileUrl, localPath,
                          downloadStatus, md5Hash, fileSizeBytes, ts⟩],
              db.nextId + 1⟩)
    | none =>
      if db.rows.any (fun q => sqlEq q.local_path localPath) then
        (none, db)
      else
        (some db.nextId,
          ⟨db.rows ++ [⟨db.nextId, itemId, fileType, fileUrl, localPath,
                        downloadStatus, md5Hash, fileSizeBytes, ts⟩],
            db.nextId + 1⟩)

/-! ## AR files table (`AR/scraper.py`, DatabaseManager.log_file) -/

/-- One row of the AR `files` table; `download_timestamp` is the ISO
string `now`, modelled as an optional clock value. -/
structure FileRowAR where
  file_id : Nat
  item_id : Nat
  file_type : String
  remote_url : Option String
  local_path : Option String
  download_status : String
  md5_hash : Option String
  file_size_bytes : Option Nat
  download_timestamp : Option Nat
  deriving Repr, DecidableEq

/-- The AR `files` table. -/
structure FilesAR where
  rows : List FileRowAR
  nextId : Nat
  deriving Repr, DecidableEq

def FilesAR.empty : FilesAR := ⟨[], 1⟩

/-- `SELECT file_id FROM files WHERE item_id = ? AND remote_url = ?`. -/
def FilesAR.findByKey (db : FilesAR) (itemId : Nat) (remoteUrl : Option String) :
    Option FileRowAR :=
  db.rows.find? (fun r => r.item_id == itemId && sqlEq r.remote_url remoteUrl)

/-- `DatabaseManager.log_file` (AR).  Upserts on the key
`(item_id, remote_url)`; both the UPDATE and the INSERT branch store
`download_timestamp = now` unconditionally, whatever the status. -/
def logFileAR (db : FilesAR) (now : Nat) (itemId : Nat) (fileType : String)
    (remoteUrl localPath : Option String) (downloadStatus : String)
    (md5Hash : Option String) (fileSizeBytes : Option Nat) : FilesAR :=
  match db.findByKey itemId remoteUrl with
  | some r =>
    ⟨db.rows.map (fun q =>
        if q.file_id == r.file_id then
          { q with local_path := localPath, download_status := downloadStatus,
                   md5_hash := md5Hash, file_size_bytes := fileSizeBytes,
                   download_timestamp := some now }
        else q),
      db.nextId⟩
  | none =>
    ⟨db.rows ++ [⟨db.nextId, itemId, fileType, remoteUrl, localPath,
                  downloadStatus, md5Hash, fileSizeBytes, some now⟩],
      db.nextId + 1⟩

/-- `DatabaseManager.check_file_status` (AR): point lookup returning
`(download_status?, local_path?)`. -/
def checkFileStatusAR (db : FilesAR) (itemId : Nat) (remoteUrl : Option String) :
    Option String × Option String :=
  match db.findByKey itemId remoteUrl with
  | some r => (some r.download_status, r.local_path)
  | none => (none, none)

/-! ## AR OAI harvester (`AR/scraper.py`, OAIHarvester.get_identifiers) -/

/-- One OAI `<header>` as the harvesters see it: the identifier text
(`none` when the element is missing or its text empty, both falsy in
the source) and the `status="deleted"` attribute. -/
structure OAIHeader where
  identifier : Option String
  deleted : Bool
  deriving Repr, DecidableEq

/-- One parsed `ListIdentifiers` page for the AR harvester: an OAI
`<error>` code if present, the header list, and the resumptionToken
text (`none` when the element is absent; `some ""` when present with
empty text). -/
structure OAIPageAR where
  error : Option String
  headers : List OAIHeader
  token : Option String
  deriving Repr, DecidableEq

/-- The `max_records and records_fetched >= max_records` guard: Python
treats `max_records = None` and `0` as falsy, disabling the limit.
`records_fetched` always equals the length of the accumulated
identifier list, since the source increments it exactly when
appending. -/
def maxReachedAR : Option Nat → Nat → Bool
  | none, _ => false
  | some n, fetched => n != 0 && fetched ≥ n

/-- The header loop of `get_identifiers`: headers with a falsy
identifier are skipped entirely; a `deleted` header is only logged;
otherwise the identifier is appended; after each header carrying an
identifier the `max_records` early `return identifiers` is checked.
Returns the accumulated identifiers and whether that early return
fired. -/
def processHeadersAR (maxR : Option Nat) : List String → List OAIHeader → List String × Bool
  | ids, [] => (ids, false)
  | ids, h :: rest =>
    match h.identifier with
    | none => processHeadersAR maxR ids rest
    | some ident =>
      let ids' := if !h.deleted then ids ++ [ident] else ids
      if maxReachedAR maxR ids'.length then (ids', true)
      else processHeadersAR maxR ids' rest

/-- The pagination loop of `OAIHarvester.get_identifiers` (AR), fed by
a `server` mapping the current resumption token to the parsed page
(HTTP retries and XML fallbacks are assumed to succeed).  The `Nat`
fuel bounds the number of requests; `none` means the loop had not
terminated within the fuel.  On success it returns the identifier list
together with the number of requests made.  The source breaks on any
OAI error, on a headerless page without a (nonempty) token, on the
`max_records` early return, on a missing or empty token, and — the
anti-loop guard — on a token identical to the previous one; a
headerless page with a nonempty token just continues. -/
def getIdentifiersARAux (server : Option String → OAIPageAR) (maxR : Option Nat) :
    Nat → Option String → List String → Nat → Option (List String × Nat)
  | 0, _, _, _ => none
  | fuel + 1, token, ids, reqs =>
    let page := server token
    let reqs' := reqs + 1
    if page.error.isSome then some (ids, reqs')
    else if page.headers.isEmpty then
      match page.token with
      | none => some (ids, reqs')
      | some t =>
        if t.isEmpty then some (ids, reqs')
        else getIdentifiersARAux server maxR fuel (some t) ids reqs'
    else
      match processHeadersAR maxR ids page.headers with
      | (ids', early) =>
        if early then some (ids', reqs')
        else
          match page.token with
          | none => some (ids', reqs')
          | some t =>
            if t.isEmpty then some (ids', reqs')
            else if some t == token then some (ids', reqs')
            else getIdentifiersARAux server maxR fuel (some t) ids' reqs'

/-- Entry point of the AR identifier harvest: no token, empty list. -/
def getIdentifiersAR (server : Option String → OAIPageAR) (maxR : Option Nat)
    (fuel : Nat) : Option (List String × Nat) :=
  getIdentifiersARAux server maxR fuel none [] 0

/-! ## BR OAI harvester (`oai_harvester_br.py`) -/

/-- `s.splitOn pat` has one piece exactly when `pat` does not occur:
Python `pat in s` for the nonempty patterns used by `_parse_record`. -/
def containsSub (s pat : String) : Bool := (s.splitOn pat).length != 1

/-- One OAI `<record>` for the BR harvester: its header (with the
`deleted` attribute present in the XML), whether a `<metadata>` section
exists, and the `dc:identifier` texts. -/
structure OAIRecordBR where
  header : Option OAIHeader
  hasMetadata : Bool
  dcIdentifiers : List String
  deriving Repr, DecidableEq

/-- The fields of a `_parse_record` result that flow into the store. -/
structure ParsedBR where
  oai_identifier : String
  item_page_url : Option String
  pdf_url : Option String
  deriving Repr, DecidableEq

/-- The item-page-URL scan over `dc_identifier_list`: the first
identifier starting with `http://` or `https://` that contains
`/handle/`, `/jspui/`, or (lower-cased) `.html` wins. -/
def findItemPageUrlBR (idents : List String) : Option String :=
  idents.foldl (fun acc ident =>
    if acc.isNone
        && (ident.startsWith "http://" || ident.startsWith "https://")
        && (containsSub ident "/handle/" || containsSub ident "/jspui/"
            || containsSub ident.toLower ".html") then
      some ident
    else acc) none

/-- `OAIHarvesterBR._parse_record`, projected onto the fields that
reach the store.  The record is dropped (`none`) when the header or the
OAI identifier is missing; when the `<metadata>` section is missing the
OAI identifier alone is returned.  The parser never reads the header's
`status="deleted"` attribute. -/
def parseRecordBR (r : OAIRecordBR) : Option ParsedBR :=
  match r.header with
  | none => none
  | some h =>
    match h.identifier with
    | none => none
    | some oid =>
      if !r.hasMetadata then some ⟨oid, none, none⟩
      else
        some ⟨oid, findItemPageUrlBR r.dcIdentifiers,
              r.dcIdentifiers.find? (fun s => s.toLower.endsWith ".pdf")⟩

/-- One parsed `ListRecords` page for the BR harvester (a successfully
fetched, error-free response; requests whose fetch fails abort the
harvest and are outside the modelled runs). -/
structure OAIPageBR where
  records : List OAIRecordBR
  token : Option String
  deriving Repr, DecidableEq

/-- `total_records_fetched_for_repo >= self.max_records_per_repo`;
the default is `float('inf')`, modelled as `none`. -/
def maxReachedBR : Option Nat → Nat → Bool
  | none, _ => false
  | some n, total => total ≥ n

/-- The record loop of `harvest_repository`: the `max_records` break is
checked before each record; a parsed record with an identifier is
counted and upserted via `get_or_create_item` with initial status
`pending_pdf_link`, and when a direct PDF URL was harvested its status
is advanced to `pending_pdf_download`.  Unparseable records are only
logged.  Returns the updated store and running record count. -/
def processRecordsBR (repo : String) (maxR : Option Nat) :
    ItemsBR → Nat → List OAIRecordBR → ItemsBR × Nat
  | db, total, [] => (db, total)
  | db, total, r :: rest =>
    if maxReachedBR maxR total then (db, total)
    else
      match parseRecordBR r with
      | some p =>
        let res := getOrCreateItemBR db repo (some p.oai_identifier)
          p.item_page_url "pending_pdf_link"
        let db' := res.2
        let db'' :=
          match res.1.1 with
          | some i => if p.pdf_url.isSome then updateItemStatusBR db' i "pending_pdf_download"
                      else db'
          | none => db'
        processRecordsBR repo maxR db'' (total + 1) rest
      | none => processRecordsBR repo maxR db total rest

/-- Python `str.strip()` on the character list: drop whitespace from
both ends (structurally recursive so that concrete harvests compute). -/
def stripChars (l : List Char) : List Char :=
  ((l.dropWhile Char.isWhitespace).reverse.dropWhile Char.isWhitespace).reverse

/-- Python `str.strip()` as used on resumption-token text. -/
def pyStrip (s : String) : String := ⟨stripChars s.data⟩

/-- The pagination loop of `OAIHarvesterBR.harvest_repository`, fed by
a `server` mapping the current token to the parsed page.  `none` means
the loop had not terminated within the fuel; otherwise the final store
and the number of requests made are returned.  The source breaks on an
empty first batch, on reaching `max_records`, and on an absent or
whitespace-only resumptionToken — it has no identical-token guard. -/
def harvestBRAux (server : Option String → OAIPageBR) (maxR : Option Nat) (repo : String) :
    Nat → Option String → Bool → ItemsBR → Nat → Nat → Option (ItemsBR × Nat)
  | 0, _, _, _, _, _ => none
  | fuel + 1, token, firstReq, db, total, reqs =>
    let page := server token
    let reqs' := reqs + 1
    if page.records.isEmpty && firstReq then some (db, reqs')
    else
      match processRecordsBR repo maxR db total page.records with
      | (db', total') =>
        if maxReachedBR maxR total' then some (db', reqs')
        else
          match page.token with
          | some t =>
            if (pyStrip t).isEmpty then some (db', reqs')
            else harvestBRAux server maxR repo fuel (some (pyStrip t)) false db' total' reqs'
          | none => some (db', reqs')

/-- Entry point of the BR repository harvest. -/
def harvestBR (server : Option String → OAIPageBR) (maxR : Option Nat) (repo : String)
    (fuel : Nat) (db : ItemsBR) : Option (ItemsBR × Nat) :=
  harvestBRAux server maxR repo fuel none true db 0 0

/-! ## Resource downloaders (`resource_downloader_br.py` and
`AR/scraper.py`, ResourceDownloader) -/

/-- The outcome of one network attempt (`requests.get` plus the
streaming write): success, a timeout, an HTTP error status (the
response object is present, so the code is a number), another
`RequestException`, or an unexpected exception. -/
inductive NetOutcome where
  | success
  | timeout
  | httpError (code : Nat)
  | netError
  | exn
  deriving Repr, DecidableEq

/-- The filesystem as the set of existing paths; writing a path. -/
def fsWrite (disk : List String) (p : String) : List String :=
  p :: disk.filter (· ≠ p)

/-- `_cleanup_partial_file`: remove the path if it exists. -/
def fsErase (disk : List String) (p : String) : List String :=
  disk.filter (· ≠ p)

/-- Result of a download-attempt loop: the final status string, the
number of network attempts performed, the inter-attempt delays slept,
and the resulting filesystem. -/
structure LoopResult where
  status : String
  attempts : Nat
  delays : List Nat
  disk : List String
  deriving Repr, DecidableEq

/-- BR terminal client errors:
`400 <= status_code < 500 and status_code not in [408, 429]`. -/
def brTerminal4xx (c : Nat) : Bool :=
  400 ≤ c && c < 500 && c ≠ 408 && c ≠ 429

/-- AR terminal client errors:
`400 <= status_code < 500 and status_code != 429`. -/
def arTerminal4xx (c : Nat) : Bool :=
  400 ≤ c && c < 500 && c ≠ 429

/-- One generic attempt loop covering both downloaders, which differ
only in their status strings and terminal-4xx predicate.
`while attempts <= max_retries`: before a retry (attempt index > 0) a
delay of `base * 2 ^ (attempt - 1)` is slept; a successful attempt
streams the file to `target` and breaks with the success status; every
failing attempt deletes the partial file; a terminal 4xx or an
unexpected exception breaks, other failures continue.  When the loop
exhausts its attempts the status of the last failure is kept.
`remaining` counts the attempts still allowed (`max_retries + 1 -
attempt`). -/
def downloadLoop (statusOfOutcome : NetOutcome → String) (terminal4xx : Nat → Bool)
    (successStatus : String) (outcomes : Nat → NetOutcome) (base : Nat) (target : String) :
    Nat → Nat → String → List Nat → List String → LoopResult
  | 0, attempt, st, delays, disk => ⟨st, attempt, delays, disk⟩
  | remaining + 1, attempt, _st, delays, disk =>
    let delays' := if attempt > 0 then delays ++ [base * 2 ^ (attempt - 1)] else delays
    match outcomes attempt with
    | .success =>
      ⟨successStatus, attempt + 1, delays', fsWrite disk target⟩
    | .timeout =>
      downloadLoop statusOfOutcome terminal4xx successStatus outcomes base target
        remaining (attempt + 1) (statusOfOutcome .timeout) delays' (fsErase disk target)
    | .httpError c =>
      if terminal4xx c then
        ⟨statusOfOutcome (.httpError c), attempt + 1, delays', fsErase disk target⟩
      else
        downloadLoop statusOfOutcome terminal4xx successStatus outcomes base target
          remaining (attempt + 1) (statusOfOutcome (.httpError c)) delays' (fsErase disk target)
    | .netError =>
      downloadLoop statusOfOutcome terminal4xx successStatus outcomes base target
        remaining (attempt + 1) (statusOfOutcome .netError) delays' (fsErase disk target)
    | .exn =>
      ⟨statusOfOutcome .exn, attempt + 1, delays', fsErase disk target⟩

/-- BR failure status strings (`result['status']` in the except arms). -/
def brStatusOf : NetOutcome → String
  | .success => "downloaded"
  | .timeout => "error_timeout"
  | .httpError c => "error_http_" ++ toString c
  | .netError => "error_network"
  | .exn => "error_exception"

/-- AR failure status strings (`final_status` in the except arms). -/
def arStatusOf : NetOutcome → String
  | .success => "downloaded"
  | .timeout => "failed_timeout"
  | .httpError c => "failed_http_" ++ toString c
  | .netError => "failed_network_error"
  | .exn => "failed_exception"

/-- The retry loop of `ResourceDownloaderBR.download_resource`
(lines 190-238), from `attempts = 0` with status `pending`. -/
def brDownloadLoop (outcomes : Nat → NetOutcome) (maxRetries base : Nat)
    (target : String) (disk : List String) : LoopResult :=
  downloadLoop brStatusOf brTerminal4xx "downloaded" outcomes base target
    (maxRetries + 1) 0 "pending" [] disk

/-- The retry loop of `ResourceDownloader.download_resource` (AR,
lines 906-959), from `attempts = 0` with status `pending`. -/
def arDownloadLoop (outcomes : Nat → NetOutcome) (maxRetries base : Nat)
    (target : String) (disk : List String) : LoopResult :=
  downloadLoop arStatusOf arTerminal4xx "downloaded" outcomes base target
    (maxRetries + 1) 0 "pending" [] disk

/-- `ResourceDownloaderBR.download_resource` after path derivation:
`priorStatus, priorPath` is the `get_file_status` result for
`(item_id, remote_url)`.

Modelled from the spec: `get_file_status(item_id, remote_url) ->
(status, local_path)` is declared in §4.1 of the design but its BR
implementation is absent from the sources (only this caller exists), so
its result is passed in as the spec's point-lookup pair.  When the
stored status is `downloaded` or `skipped_exists`, the source skips the
download only if the stored path is truthy and exists on disk;
otherwise it re-enters the attempt loop.  The final `log_file_result`
store write is outside this projection. -/
def brDownloadResource (priorStatus priorPath : Option String) (disk : List String)
    (outcomes : Nat → NetOutcome) (maxRetries base : Nat) (target : String) : LoopResult :=
  if priorStatus == some "downloaded" || priorStatus == some "skipped_exists" then
    match priorStatus, priorPath with
    | some st, some p =>
      if truthy (some p) && disk.contains p then ⟨st, 0, [], disk⟩
      else brDownloadLoop outcomes maxRetries base target disk
    | some _, none => brDownloadLoop outcomes maxRetries base target disk
    | none, _ => brDownloadLoop outcomes maxRetries base target disk
  else brDownloadLoop outcomes maxRetries base target disk

/-- `ResourceDownloader.download_resource` (AR) after URL and item-id
guards: consult `check_file_status` and return immediately on a stored
terminal success; else, a file already present at the target path is
verified and marked `skipped_exists` without any network call; else run
the retry loop.  The final `log_file` write is outside this
projection. -/
def arDownloadResource (priorStatus : Option String) (disk : List String)
    (outcomes : Nat → NetOutcome) (maxRetries base : Nat) (target : String) : LoopResult :=
  if priorStatus == some "downloaded" || priorStatus == some "skipped_exists" then
    ⟨priorStatus.getD "", 0, [], disk⟩
  else if disk.contains target then
    ⟨"skipped_exists", 0, [], disk⟩
  else arDownloadLoop outcomes maxRetries base target disk

/-! ## AR orchestrator (`AR/scraper.py`, Scraper.run item loop) -/

/-- What happens when one item is handled: `fetch_and_extract` returns
no metadata, or metadata with a list of `(resource_type,
download_status)` results from the downloader, or an uncaught exception
escapes the item's processing. -/
inductive ItemBehavior where
  | metaNone
  | meta (resources : List (String × String))
  | raises
  deriving Repr, DecidableEq

/-- Item statuses as a total map (the batch is selected from the items
table, so each processed id has a row for `update_item_status` to hit). -/
def ItemStatuses := Nat → String

/-- `update_item_status` on the status map. -/
def setStatus (st : ItemStatuses) (i : Nat) (s : String) : ItemStatuses :=
  fun j => if j == i then s else st j

/-- A download failure of a resource is one whose status starts with
`failed`; it blocks `processed` exactly when the resource is critical,
i.e. its type is `pdf`. -/
def criticalFailure (r : String × String) : Bool :=
  r.2.startsWith "failed" && r.1 == "pdf"

/-- The body of the item loop in `Scraper.run` (lines 1271-1355): mark
`processing`; a metadata extraction failure marks `error`; otherwise
the item is `processed` unless some critical resource download failed;
an uncaught exception is caught at the item boundary and marks
`error`.  Only the item's own row is written. -/
def processItemAR (behavior : Nat → ItemBehavior) (st : ItemStatuses) (i : Nat) :
    ItemStatuses :=
  let st1 := setStatus st i "processing"
  match behavior i with
  | .raises => setStatus st1 i "error"
  | .metaNone => setStatus st1 i "error"
  | .meta rs =>
    if rs.any criticalFailure then setStatus st1 i "error"
    else setStatus st1 i "processed"

/-- The batch loop of `Scraper.run`: items are handled in order, each
through `processItemAR`. -/
def runBatchAR (behavior : Nat → ItemBehavior) (st : ItemStatuses) (items : List Nat) :
    ItemStatuses :=
  items.foldl (processItemAR behavior) st

/-- The terminal status an item's own behavior determines. -/
def expectedStatusAR : ItemBehavior → String
  | .raises => "error"
  | .metaNone => "error"
  | .meta rs => if rs.any criticalFailure then "error" else "processed"

/-! ## Theorems -/

/-- A BR item lookup can only succeed when one of the two keys is truthy. -/
theorem ItemsBR.lookupItem_none_of_falsy (db : ItemsBR) (oid url : Option String)
    (h1 : truthy oid = false) (h2 : truthy url = false) :
    db.lookupItem oid url = none := by
  unfold ItemsBR.lookupItem
  cases oid <;> cases url <;> simp_all

/-- C10: calling the BR item upsert with both `oai_identifier` and
`item_page_url` absent returns `(None, False)` and neither inserts nor
modifies any row of the store. -/
theorem c10_missing_key_never_writes (db : ItemsBR) (repo st : String) :
    getOrCreateItemBR db repo none none st = ((none, false), db) := rfl

/-- An AR items table holding one item whose URL is `"u"` and whose
status is the terminal success `processed`. -/
def c1ProcessedDbAR : ItemsAR :=
  ⟨[⟨1, "u", some "oai:x", "keyword_search", some "kw", "processed"⟩], 2⟩

/-- C1 counterexample: re-discovering the `processed` item of
`c1ProcessedDbAR` through `get_or_create_item_by_url` with the
requested status `pending_download` (exactly the keyword-search call)
overwrites the stored status, so the upsert does not leave the stored
`processing_status` unchanged and does regress a terminal-success item
back to pending. -/
theorem c1_rediscovery_resets_status :
    c1ProcessedDbAR.rows.map ItemRowAR.processing_status = ["processed"] ∧
    (getOrCreateItemByUrlAR c1ProcessedDbAR "u" "pending_download" "keyword_search"
        none (some "kw")).2.rows.map ItemRowAR.processing_status = ["pending_download"] ∧
    (getOrCreateItemByUrlAR c1ProcessedDbAR "u" "pending_download" "keyword_search"
        none (some "kw")).1 = (some 1, some "pending_download") := by
  refine ⟨rfl, ?_, rfl⟩
  rfl

/-- Status updates keyed on an item id do not move rows or change URLs,
so a URL lookup after the update finds the same row with the new
status applied when its id matches. -/
theorem ItemsAR.find?_url_map_status (rows : List ItemRowAR) (u : String) (i : Nat)
    (s : String) :
    (rows.map (fun q => if q.item_id == i then { q with processing_status := s } else q)).find?
        (fun q => q.item_page_url == u)
      = (rows.find? (fun q => q.item_page_url == u)).map
          (fun q => if q.item_id == i then { q with processing_status := s } else q) := by
  have hcomp : ((fun q : ItemRowAR => q.item_page_url == u) ∘ fun q =>
      if q.item_id = i then { q with processing_status := s } else q)
      = fun q : ItemRowAR => q.item_page_url == u := by
    funext q
    by_cases h : q.item_id = i <;> simp [h]
  induction rows with
  | nil => rfl
  | cons r rest ih =>
    by_cases hi : r.item_id = i <;> by_cases hu : r.item_page_url = u <;>
      simp [List.find?_cons, hi, hu, ih, hcomp]

/-- C1 amended: re-discovery never duplicates.  In BR, when the
two-step lookup finds an existing row, `get_or_create_item` returns its
id with `is_new_item = false` and leaves the store — in particular the
stored status — unchanged.  In AR, when a row with the URL exists,
`get_or_create_item_by_url` returns its id and inserts no second row,
but it overwrites the stored `processing_status` with the requested
one whenever the two differ, so a `processed` item is regressed by a
pending re-discovery. -/
theorem c1_upsert_no_duplicate (dbB : ItemsBR) (repo : String) (oid url : Option String)
    (st : String) (rB : ItemRowBR) (hB : dbB.lookupItem oid url = some rB)
    (dbA : ItemsAR) (u ps dm : String) (oid' kw : Option String) (rA : ItemRowAR)
    (hA : dbA.findByUrl u = some rA) :
    getOrCreateItemBR dbB repo oid url st = ((some rB.item_id, false), dbB)
    ∧ (getOrCreateItemByUrlAR dbA u ps dm oid' kw).1.1 = some rA.item_id
    ∧ (getOrCreateItemByUrlAR dbA u ps dm oid' kw).1.2 = some ps
    ∧ (getOrCreateItemByUrlAR dbA u ps dm oid' kw).2.rows.length = dbA.rows.length
    ∧ (getOrCreateItemByUrlAR dbA u ps dm oid' kw).2.findByUrl u
        = some { rA with processing_status := ps } := by
  have hbr : getOrCreateItemBR dbB repo oid url st = ((some rB.item_id, false), dbB) := by
    by_cases hfb : (!truthy oid && !truthy url) = true
    · exfalso
      have h1 : truthy oid = false := by
        have := (Bool.and_eq_true _ _).mp hfb
        simpa using this.1
      have h2 : truthy url = false := by
        have := (Bool.and_eq_true _ _).mp hfb
        simpa using this.2
      rw [ItemsBR.lookupItem_none_of_falsy dbB oid url h1 h2] at hB
      exact Option.noConfusion hB
    · unfold getOrCreateItemBR
      rw [if_neg hfb, hB]
  have key : getOrCreateItemByUrlAR dbA u ps dm oid' kw =
      if rA.processing_status ≠ ps then
        ((some rA.item_id, some ps),
          ⟨dbA.rows.map (fun q =>
              if q.item_id == rA.item_id then { q with processing_status := ps } else q),
            dbA.nextId⟩)
      else ((some rA.item_id, some rA.processing_status), dbA) := by
    unfold getOrCreateItemByUrlAR
    rw [hA]
  refine ⟨hbr, ?_⟩
  rw [key]
  by_cases hne : rA.processing_status ≠ ps
  · rw [if_pos hne]
    refine ⟨rfl, rfl, by simp, ?_⟩
    show ItemsAR.findByUrl _ u = _
    unfold ItemsAR.findByUrl
    rw [ItemsAR.find?_url_map_status]
    unfold ItemsAR.findByUrl at hA
    rw [hA]
    simp
  · rw [if_neg hne]
    push_neg at hne
    refine ⟨rfl, by rw [hne], rfl, ?_⟩
    show ItemsAR.findByUrl dbA u = _
    rw [hA, ← hne]

/-- Witness for `c1_upsert_no_duplicate` at a one-row BR store found by
its OAI identifier and a one-row AR store found by its URL. -/
theorem c1_upsert_no_duplicate_witness :
    getOrCreateItemBR ⟨[⟨1, "alice", some "oai:a", none, "processed"⟩], 2⟩ "alice"
        (some "oai:a") none "pending_oai_harvest"
      = ((some 1, false), ⟨[⟨1, "alice", some "oai:a", none, "processed"⟩], 2⟩)
    ∧ (getOrCreateItemByUrlAR ⟨[⟨1, "u", none, "oai", none, "processed"⟩], 2⟩ "u"
        "pending_download" "oai" none none).1.1 = some 1
    ∧ (getOrCreateItemByUrlAR ⟨[⟨1, "u", none, "oai", none, "processed"⟩], 2⟩ "u"
        "pending_download" "oai" none none).1.2 = some "pending_download"
    ∧ (getOrCreateItemByUrlAR ⟨[⟨1, "u", none, "oai", none, "processed"⟩], 2⟩ "u"
        "pending_download" "oai" none none).2.rows.length
        = (⟨[⟨1, "u", none, "oai", none, "processed"⟩], 2⟩ : ItemsAR).rows.length
    ∧ (getOrCreateItemByUrlAR ⟨[⟨1, "u", none, "oai", none, "processed"⟩], 2⟩ "u"
        "pending_download" "oai" none none).2.findByUrl "u"
        = some ⟨1, "u", none, "oai", none, "pending_download"⟩ := by
  have h := c1_upsert_no_duplicate
    ⟨[⟨1, "alice", some "oai:a", none, "processed"⟩], 2⟩ "alice" (some "oai:a") none
    "pending_oai_harvest" ⟨1, "alice", some "oai:a", none, "processed"⟩ (by rfl)
    ⟨[⟨1, "u", none, "oai", none, "processed"⟩], 2⟩ "u" "pending_download" "oai" none none
    ⟨1, "u", none, "oai", none, "processed"⟩ (by rfl)
  exact h

/-- The BR files table after recording a failed download of url `u`
for item 1 at local path `A`. -/
def c2DbStep1 : FilesBR :=
  (logFileDownloadBR FilesBR.empty 0 1 "pdf" (some "u") (some "A") "failed" none none).2

/-- … and after then recording a `skipped_exist` result for the same
`(item_id, file_url)` pair at a different local path `B`. -/
def c2DbStep2 : FilesBR :=
  (logFileDownloadBR c2DbStep1 1 1 "pdf" (some "u") (some "B") "skipped_exist" none none).2

/-- C2 counterexample: the second `log_file_download` call for the same
`(item_id, file_url)` pair — recording `skipped_exist` with a changed
local path — INSERTs instead of updating, leaving two `files` rows for
the single pair `(1, "u")`. -/
theorem c2_skipped_changed_path_duplicates :
    (c2DbStep1.rows.filter (fun r => r.item_id == 1 && sqlEq r.file_url (some "u"))).length = 1
    ∧ (c2DbStep2.rows.filter (fun r => r.item_id == 1 && sqlEq r.file_url (some "u"))).length = 2 := by
  exact ⟨rfl, rfl⟩

/-- At most one AR `files` row per `(item_id, remote_url)` key. -/
def FilesAR.UniqueKey (db : FilesAR) : Prop :=
  db.rows.Pairwise (fun r q => ¬(r.item_id = q.item_id ∧ sqlEq r.remote_url q.remote_url = true))

/-- C2 amended: AR's `log_file` is a true upsert on `(item_id,
remote_url)` — it preserves at-most-one-row-per-key for every call.
BR's `log_file_download` updates in place when the row is matched by
`(local_path, item_id, file_type)`, or by `(item_id, file_type,
file_url)` with a status other than `skipped_exist`; recording
`skipped_exist` under a changed local path instead inserts a second row
for the same `(item_id, file_url)`. -/
theorem c2_file_upsert_updates_in_place
    (dbA : FilesAR) (hA : dbA.UniqueKey) (now itemId : Nat) (ft : String)
    (url path : Option String) (st : String) (md5 : Option String) (sz : Option Nat)
    (dbB : FilesBR) (nowB itemB : Nat) (ftB : String) (urlB pathB : Option String)
    (stB : String) (md5B : Option String) (szB : Option Nat) (r : FileRowBR) :
    (logFileAR dbA now itemId ft url path st md5 sz).UniqueKey
    ∧ (dbB.findByPath pathB itemB ftB = some r →
        (logFileDownloadBR dbB nowB itemB ftB urlB pathB stB md5B szB).2.rows.length
          = dbB.rows.length)
    ∧ (dbB.findByPath pathB itemB ftB = none → dbB.findByUrl itemB ftB urlB = some r →
        stB ≠ "skipped_exist" →
        (logFileDownloadBR dbB nowB itemB ftB urlB pathB stB md5B szB).2.rows.length
          = dbB.rows.length) := by
  refine ⟨?_, ?_, ?_⟩
  · unfold logFileAR
    cases hfind : dbA.findByKey itemId url with
    | some q =>
      show List.Pairwise _ (dbA.rows.map _)
      rw [List.pairwise_map]
      refine hA.imp ?_
      intro a b hab
      by_cases ha : a.file_id = q.file_id <;> by_cases hb : b.file_id = q.file_id <;>
        simpa [ha, hb] using hab
    | none =>
      show List.Pairwise _ (dbA.rows ++ _)
      rw [List.pairwise_append]
      refine ⟨hA, List.pairwise_singleton _ _, ?_⟩
      intro a ha b hb
      have hb' : b = ⟨dbA.nextId, itemId, ft, url, path, st, md5, sz, some now⟩ := by
        simpa using hb
      subst hb'
      intro hcon
      have hnone := List.find?_eq_none.mp hfind a ha
      apply hnone
      simp only [Bool.and_eq_true, beq_iff_eq]
      exact ⟨hcon.1, hcon.2⟩
  · intro hfind
    unfold logFileDownloadBR
    rw [hfind]
    simp
  · intro hnp hfu hst
    simp only [logFileDownloadBR, hnp, hfu]
    rw [if_pos hst]
    simp

/-- Witness for `c2_file_upsert_updates_in_place`: a one-row AR table
updated by key, and a one-row BR table matched first by path and then
by URL. -/
theorem c2_file_upsert_updates_in_place_witness :
    (logFileAR ⟨[⟨1, 1, "pdf", some "u", some "p", "failed_timeout", none, none, some 0⟩], 2⟩
        3 1 "pdf" (some "u") (some "p") "downloaded" (some "h") (some 9)).UniqueKey
    ∧ ((⟨[⟨1, 1, "pdf", some "u", some "A", "failed", none, none, none⟩], 2⟩ : FilesBR).findByPath
          (some "A") 1 "pdf" = some ⟨1, 1, "pdf", some "u", some "A", "failed", none, none, none⟩ →
        (logFileDownloadBR ⟨[⟨1, 1, "pdf", some "u", some "A", "failed", none, none, none⟩], 2⟩
            4 1 "pdf" (some "u") (some "A") "success" (some "h") (some 9)).2.rows.length
          = (⟨[⟨1, 1, "pdf", some "u", some "A", "failed", none, none, none⟩], 2⟩ : FilesBR).rows.length)
    ∧ ((⟨[⟨1, 1, "pdf", some "u", some "A", "failed", none, none, none⟩], 2⟩ : FilesBR).findByPath
          (some "A") 1 "pdf" = none →
        (⟨[⟨1, 1, "pdf", some "u", some "A", "failed", none, none, none⟩], 2⟩ : FilesBR).findByUrl
          1 "pdf" (some "u") = some ⟨1, 1, "pdf", some "u", some "A", "failed", none, none, none⟩ →
        "success" ≠ "skipped_exist" →
        (logFileDownloadBR ⟨[⟨1, 1, "pdf", some "u", some "A", "failed", none, none, none⟩], 2⟩
            4 1 "pdf" (some "u") (some "A") "success" (some "h") (some 9)).2.rows.length
          = (⟨[⟨1, 1, "pdf", some "u", some "A", "failed", none, none, none⟩], 2⟩ : FilesBR).rows.length) := by
  exact c2_file_upsert_updates_in_place
    ⟨[⟨1, 1, "pdf", some "u", some "p", "failed_timeout", none, none, some 0⟩], 2⟩
    (by unfold FilesAR.UniqueKey; exact List.pairwise_singleton _ _)
    3 1 "pdf" (some "u") (some "p") "downloaded" (some "h") (some 9)
    ⟨[⟨1, 1, "pdf", some "u", some "A", "failed", none, none, none⟩], 2⟩
    4 1 "pdf" (some "u") (some "A") "success" (some "h") (some 9)
    ⟨1, 1, "pdf", some "u", some "A", "failed", none, none, none⟩

/-- C8 counterexample: AR's `log_file` stamps `download_timestamp`
with the attempt time on every call, so recording a failure leaves the
row with a non-null success timestamp — the claimed iff fails at the
very first failed log. -/
theorem c8_ar_failure_stamps_timestamp :
    (logFileAR FilesAR.empty 5 1 "pdf" (some "u") (some "p") "failed_timeout" none none).rows.map
      (fun r => (r.download_status, r.download_timestamp)) = [("failed_timeout", some 5)] := rfl

/-- The BR files invariant: the success timestamp is non-null exactly
on rows whose status is the terminal success `success`. -/
def FilesBR.TsIffSuccess (db : FilesBR) : Prop :=
  ∀ r ∈ db.rows, (r.download_timestamp.isSome ↔ r.download_status = "success")

/-- C8 amended: BR's `log_file_download` preserves the invariant that
`download_timestamp` is non-null iff `download_status` is the terminal
success `success` — in particular recording a failure leaves (or
resets) the timestamp to null.  AR's `log_file` instead always writes
`download_timestamp = now`: after any call some row carries the
recorded status together with the attempt timestamp, failures
included. -/
theorem c8_timestamp_iff_success
    (dbB : FilesBR) (hB : dbB.TsIffSuccess) (nowB itemB : Nat) (ftB : String)
    (urlB pathB : Option String) (stB : String) (md5B : Option String) (szB : Option Nat)
    (dbA : FilesAR) (nowA itemA : Nat) (ftA : String) (urlA pathA : Option String)
    (stA : String) (md5A : Option String) (szA : Option Nat) :
    (logFileDownloadBR dbB nowB itemB ftB urlB pathB stB md5B szB).2.TsIffSuccess
    ∧ ∃ q ∈ (logFileAR dbA nowA itemA ftA urlA pathA stA md5A szA).rows,
        q.item_id = itemA ∧ q.remote_url = urlA ∧ q.download_status = stA
        ∧ q.download_timestamp = some nowA := by
  have hts : ((if (stB == "success") = true then some nowB else none : Option Nat).isSome
      ↔ stB = "success") := by
    by_cases h : stB = "success" <;> simp [h]
  constructor
  · cases hfp : dbB.findByPath pathB itemB ftB with
    | some r =>
      simp only [logFileDownloadBR, hfp]
      intro q hq
      obtain ⟨p, hp, rfl⟩ := List.mem_map.mp hq
      by_cases hid : (p.file_id == r.file_id) = true
      · simpa [hid] using hts
      · simpa [hid] using hB p hp
    | none =>
      cases hfu : dbB.findByUrl itemB ftB urlB with
      | some r =>
        simp only [logFileDownloadBR, hfp, hfu]
        by_cases hst : stB ≠ "skipped_exist"
        · rw [if_pos hst]
          intro q hq
          obtain ⟨p, hp, rfl⟩ := List.mem_map.mp hq
          by_cases hid : (p.file_id == r.file_id) = true
          · simpa [hid] using hts
          · simpa [hid] using hB p hp
        · rw [if_neg hst]
          by_cases hany : (dbB.rows.any fun q => sqlEq q.local_path pathB) = true
          · rw [if_pos hany]
            exact hB
          · rw [if_neg hany]
            intro q hq
            rcases List.mem_append.mp hq with h | h
            · exact hB q h
            · have hq' : q = ⟨dbB.nextId, itemB, ftB, urlB, pathB, stB, md5B, szB,
                  if (stB == "success") = true then some nowB else none⟩ := by
                simpa using h
              subst hq'
              simpa using hts
      | none =>
        simp only [logFileDownloadBR, hfp, hfu]
        by_cases hany : (dbB.rows.any fun q => sqlEq q.local_path pathB) = true
        · rw [if_pos hany]
          exact hB
        · rw [if_neg hany]
          intro q hq
          rcases List.mem_append.mp hq with h | h
          · exact hB q h
          · have hq' : q = ⟨dbB.nextId, itemB, ftB, urlB, pathB, stB, md5B, szB,
                if (stB == "success") = true then some nowB else none⟩ := by
              simpa using h
            subst hq'
            simpa using hts
  · cases hfk : dbA.findByKey itemA urlA with
    | some r =>
      have hfk' : dbA.rows.find? (fun q => q.item_id == itemA && sqlEq q.remote_url urlA)
          = some r := hfk
      have hmem : r ∈ dbA.rows := List.mem_of_find?_eq_some hfk'
      have hpred := List.find?_some hfk'
      simp only [Bool.and_eq_true, beq_iff_eq] at hpred
      have hurl : r.remote_url = urlA := by
        cases hru : r.remote_url with
        | none => rw [hru] at hpred; simp [sqlEq] at hpred
        | some v =>
          cases hua : urlA with
          | none => rw [hru, hua] at hpred; simp [sqlEq] at hpred
          | some w =>
            rw [hru, hua] at hpred
            have hvw : v = w := by simpa [sqlEq] using hpred.2
            rw [hvw]
      simp only [logFileAR, hfk]
      refine ⟨⟨r.file_id, r.item_id, r.file_type, r.remote_url, pathA, stA, md5A, szA,
          some nowA⟩, ?_, hpred.1, hurl, rfl, rfl⟩
      refine List.mem_map.mpr ⟨r, hmem, ?_⟩
      simp
    | none =>
      simp only [logFileAR, hfk]
      exact ⟨⟨dbA.nextId, itemA, ftA, urlA, pathA, stA, md5A, szA, some nowA⟩,
        List.mem_append.mpr (Or.inr (List.mem_singleton.mpr rfl)), rfl, rfl, rfl, rfl⟩

/-- Witness for `c8_timestamp_iff_success` on one-row BR and empty AR
tables. -/
theorem c8_timestamp_iff_success_witness :
    (logFileDownloadBR ⟨[⟨1, 1, "pdf", some "u", some "A", "success", none, none, some 2⟩], 2⟩
        7 1 "pdf" (some "u") (some "A") "failed" none none).2.TsIffSuccess
    ∧ ∃ q ∈ (logFileAR FilesAR.empty 9 1 "pdf" (some "u") (some "p") "failed_timeout"
          none none).rows,
        q.item_id = 1 ∧ q.remote_url = some "u" ∧ q.download_status = "failed_timeout"
        ∧ q.download_timestamp = some 9 := by
  refine c8_timestamp_iff_success
    ⟨[⟨1, 1, "pdf", some "u", some "A", "success", none, none, some 2⟩], 2⟩ ?_
    7 1 "pdf" (some "u") (some "A") "failed" none none
    FilesAR.empty 9 1 "pdf" (some "u") (some "p") "failed_timeout" none none
  intro r hr
  have : r = ⟨1, 1, "pdf", some "u", some "A", "success", none, none, some 2⟩ := by
    simpa using hr
  subst this
  simp

/-- C4 counterexample: BR exempts 408 as well as 429 from the terminal
4xx set (`status_code not in [408, 429]`), so a constant-408 server is
retried through all `max_retries + 1` attempts instead of ending the
loop on first occurrence with exactly one attempt. -/
theorem c4_br_408_retried :
    (brDownloadLoop (fun _ => .httpError 408) 3 5 "t" []).attempts = 4
    ∧ (brDownloadLoop (fun _ => .httpError 408) 3 5 "t" []).status = "error_http_408"
    ∧ brTerminal4xx 408 = false ∧ arTerminal4xx 408 = true := ⟨rfl, rfl, rfl, rfl⟩

/-- Removing a path twice removes it once. -/
theorem fsErase_idem (disk : List String) (p : String) :
    fsErase (fsErase disk p) p = fsErase disk p := by
  simp [fsErase, List.filter_filter]

/-- The outcomes whose `except` arms continue the attempt loop instead
of breaking: a timeout, another `RequestException` (network error), or
an HTTP error whose code the variant's terminal-4xx test rejects
(5xx, 429, and — in BR — 408).  A success and an unexpected exception
break the loop. -/
def retryable (t4 : Nat → Bool) : NetOutcome → Bool
  | .timeout => true
  | .netError => true
  | .httpError c => !t4 c
  | .success => false
  | .exn => false

/-- One retried attempt: when the outcome of attempt `j` is retryable,
the loop sleeps the backoff delay (for `j > 0`), records the failure
status, erases the partial file, and continues with the next attempt. -/
theorem downloadLoop_retry_step (so : NetOutcome → String) (t4 : Nat → Bool) (ss : String)
    (out : Nat → NetOutcome) (base : Nat) (target : String)
    (r j : Nat) (st : String) (delays : List Nat) (disk : List String)
    (hR : retryable t4 (out j) = true) :
    downloadLoop so t4 ss out base target (r + 1) j st delays disk
      = downloadLoop so t4 ss out base target r (j + 1) (so (out j))
          (if j > 0 then delays ++ [base * 2 ^ (j - 1)] else delays)
          (fsErase disk target) := by
  rw [downloadLoop]
  cases hout : out j with
  | success => rw [hout] at hR; exact absurd hR (by simp [retryable])
  | timeout => rfl
  | httpError c =>
    have ht : t4 c = false := by
      rw [hout] at hR
      simpa [retryable] using hR
    simp only [ht, Bool.false_eq_true, if_false]
  | netError => rfl
  | exn => rw [hout] at hR; exact absurd hR (by simp [retryable])

/-- A sequence of retryable outcomes drives the attempt loop through
every remaining attempt, sleeping `base * 2 ^ (attempt - 1)` before
each retry, and ends with the last attempt's failure status. -/
theorem downloadLoop_retryable_all (so : NetOutcome → String) (t4 : Nat → Bool) (ss : String)
    (out : Nat → NetOutcome) (base : Nat) (target : String)
    (hR : ∀ i, retryable t4 (out i) = true) :
    ∀ (m j : Nat) (st : String) (delays : List Nat) (disk : List String), 1 ≤ j →
      downloadLoop so t4 ss out base target (m + 1) j st delays (fsErase disk target)
        = ⟨so (out (j + m)), j + m + 1,
            delays ++ (List.range (m + 1)).map (fun i => base * 2 ^ (j - 1 + i)),
            fsErase disk target⟩ := by
  intro m
  induction m with
  | zero =>
    intro j st delays disk hj
    have hj' : j > 0 := hj
    rw [downloadLoop_retry_step so t4 ss out base target 0 j st delays _ (hR j)]
    rw [fsErase_idem]
    rw [downloadLoop]
    simp only [if_pos hj']
    rw [Nat.add_zero]
    simp [List.range_succ]
  | succ n ih =>
    intro j st delays disk hj
    have hj' : j > 0 := hj
    rw [downloadLoop_retry_step so t4 ss out base target (n + 1) j st delays _ (hR j)]
    rw [fsErase_idem]
    rw [ih (j + 1) (so (out j))
      (if j > 0 then delays ++ [base * 2 ^ (j - 1)] else delays) disk (by omega)]
    simp only [if_pos hj']
    have hidx : j + 1 + n = j + (n + 1) := by omega
    have hdel : (delays ++ [base * 2 ^ (j - 1)])
          ++ (List.range (n + 1)).map (fun i => base * 2 ^ (j + 1 - 1 + i))
        = delays ++ (List.range (n + 2)).map (fun i => base * 2 ^ (j - 1 + i)) := by
      rw [List.append_assoc]
      congr 1
      conv_rhs => rw [List.range_succ_eq_map, List.map_cons, List.map_map]
      rw [List.singleton_append]
      congr 1
      apply List.map_congr_left
      intro i _
      show base * 2 ^ (j + 1 - 1 + i) = base * 2 ^ (j - 1 + (i + 1))
      have harith : j + 1 - 1 + i = j - 1 + (i + 1) := by omega
      rw [harith]
    rw [hidx, hdel]

/-- The BR retry loop on any sequence of retryable outcomes (timeouts,
network errors, 5xx/429/408 responses, in any mixture): all
`max_retries + 1` attempts are made, the inter-attempt delays grow
exponentially, and the final status is that of the last failure. -/
theorem brDownloadLoop_retryable (out : Nat → NetOutcome) (maxR base : Nat) (target : String)
    (disk : List String) (hR : ∀ i, retryable brTerminal4xx (out i) = true) :
    brDownloadLoop out maxR base target disk
      = ⟨brStatusOf (out maxR), maxR + 1, (List.range maxR).map (fun i => base * 2 ^ i),
          fsErase disk target⟩ := by
  unfold brDownloadLoop
  rw [downloadLoop_retry_step brStatusOf brTerminal4xx "downloaded" out base target
    maxR 0 "pending" [] disk (hR 0)]
  norm_num
  cases maxR with
  | zero =>
    rw [downloadLoop]
    rfl
  | succ m =>
    rw [downloadLoop_retryable_all brStatusOf brTerminal4xx "downloaded" out base target hR
      m 1 (brStatusOf (out 0)) [] disk (Nat.le_refl 1)]
    have h1 : 1 + m = m + 1 := by omega
    have hdel : (List.range (m + 1)).map (fun i => base * 2 ^ (1 - 1 + i))
        = (List.range (m + 1)).map (fun i => base * 2 ^ i) := by
      apply List.map_congr_left
      intro i _
      have hi : 1 - 1 + i = i := by omega
      rw [hi]
    rw [h1, hdel, List.nil_append]

/-- The AR retry loop on any sequence of retryable outcomes (timeouts,
network errors, 5xx/429 responses, in any mixture): all
`max_retries + 1` attempts are made, the inter-attempt delays grow
exponentially, and the final status is that of the last failure. -/
theorem arDownloadLoop_retryable (out : Nat → NetOutcome) (maxR base : Nat) (target : String)
    (disk : List String) (hR : ∀ i, retryable arTerminal4xx (out i) = true) :
    arDownloadLoop out maxR base target disk
      = ⟨arStatusOf (out maxR), maxR + 1, (List.range maxR).map (fun i => base * 2 ^ i),
          fsErase disk target⟩ := by
  unfold arDownloadLoop
  rw [downloadLoop_retry_step arStatusOf arTerminal4xx "downloaded" out base target
    maxR 0 "pending" [] disk (hR 0)]
  norm_num
  cases maxR with
  | zero =>
    rw [downloadLoop]
    rfl
  | succ m =>
    rw [downloadLoop_retryable_all arStatusOf arTerminal4xx "downloaded" out base target hR
      m 1 (arStatusOf (out 0)) [] disk (Nat.le_refl 1)]
    have h1 : 1 + m = m + 1 := by omega
    have hdel : (List.range (m + 1)).map (fun i => base * 2 ^ (1 - 1 + i))
        = (List.range (m + 1)).map (fun i => base * 2 ^ i) := by
      apply List.map_congr_left
      intro i _
      have hi : 1 - 1 + i = i := by omega
      rw [hi]
    rw [h1, hdel, List.nil_append]

/-- C4 amended: a first-attempt 4xx response that the variant treats as
terminal (any 4xx except 429 for AR; any 4xx except 408 and 429 for BR)
ends the loop after exactly one attempt, no delays slept, with the
failure status naming the code; any sequence of retryable outcomes —
a timeout, a network error, or a 5xx/429 (and, in BR, 408) response at
each attempt, in any mixture — is retried through `max_retries` further
attempts with delays `base * 2 ^ 0, …, base * 2 ^ (max_retries - 1)`,
ending with the last failure's status. -/
theorem c4_terminal_4xx_and_backoff
    (outA outB outRA outRB : Nat → NetOutcome) (c maxR base : Nat) (target : String)
    (disk : List String)
    (hA0 : outA 0 = .httpError c) (hcA : arTerminal4xx c = true)
    (hB0 : outB 0 = .httpError c) (hcB : brTerminal4xx c = true)
    (hRA : ∀ i, retryable arTerminal4xx (outRA i) = true)
    (hRB : ∀ i, retryable brTerminal4xx (outRB i) = true) :
    arDownloadLoop outA maxR base target disk
      = ⟨"failed_http_" ++ toString c, 1, [], fsErase disk target⟩
    ∧ brDownloadLoop outB maxR base target disk
      = ⟨"error_http_" ++ toString c, 1, [], fsErase disk target⟩
    ∧ arDownloadLoop outRA maxR base target disk
      = ⟨arStatusOf (outRA maxR), maxR + 1, (List.range maxR).map (fun i => base * 2 ^ i),
          fsErase disk target⟩
    ∧ brDownloadLoop outRB maxR base target disk
      = ⟨brStatusOf (outRB maxR), maxR + 1, (List.range maxR).map (fun i => base * 2 ^ i),
          fsErase disk target⟩ := by
  refine ⟨?_, ?_, arDownloadLoop_retryable outRA maxR base target disk hRA,
    brDownloadLoop_retryable outRB maxR base target disk hRB⟩
  · unfold arDownloadLoop
    rw [downloadLoop, hA0]
    simp [hcA, arStatusOf]
  · unfold brDownloadLoop
    rw [downloadLoop, hB0]
    simp [hcB, brStatusOf]

/-- A mixed retryable sequence for AR: a network error, then a 500,
then timeouts. -/
def c4MixedOutA : Nat → NetOutcome
  | 0 => .netError
  | 1 => .httpError 500
  | _ => .timeout

/-- A mixed retryable sequence for BR: a 429, then a 408, then a 503,
then network errors. -/
def c4MixedOutB : Nat → NetOutcome
  | 0 => .httpError 429
  | 1 => .httpError 408
  | 2 => .httpError 503
  | _ => .netError

/-- Witness for `c4_terminal_4xx_and_backoff` with a constant-404
network for the terminal parts and the mixed retryable sequences for
the backoff parts, `max_retries = 3`, `base_delay = 5`. -/
theorem c4_terminal_4xx_and_backoff_witness :
    arDownloadLoop (fun _ => .httpError 404) 3 5 "t" ["t"]
      = ⟨"failed_http_" ++ toString 404, 1, [], fsErase ["t"] "t"⟩
    ∧ brDownloadLoop (fun _ => .httpError 404) 3 5 "t" ["t"]
      = ⟨"error_http_" ++ toString 404, 1, [], fsErase ["t"] "t"⟩
    ∧ arDownloadLoop c4MixedOutA 3 5 "t" ["t"]
      = ⟨arStatusOf (c4MixedOutA 3), 3 + 1, (List.range 3).map (fun i => 5 * 2 ^ i),
          fsErase ["t"] "t"⟩
    ∧ brDownloadLoop c4MixedOutB 3 5 "t" ["t"]
      = ⟨brStatusOf (c4MixedOutB 3), 3 + 1, (List.range 3).map (fun i => 5 * 2 ^ i),
          fsErase ["t"] "t"⟩ :=
  c4_terminal_4xx_and_backoff (fun _ => .httpError 404) (fun _ => .httpError 404)
    c4MixedOutA c4MixedOutB 404 3 5 "t" ["t"] rfl rfl rfl rfl
    (fun i => match i with
      | 0 => rfl
      | 1 => rfl
      | _ + 2 => rfl)
    (fun i => match i with
      | 0 => rfl
      | 1 => rfl
      | 2 => rfl
      | _ + 3 => rfl)

/-- C6 counterexample: with a stored terminal-success result
(`downloaded` at path `/p`) but no file on disk, the BR downloader does
not return immediately — it performs a network attempt (here one
successful request), contradicting the claimed zero network requests. -/
theorem c6_br_redownloads_when_file_missing :
    (brDownloadResource (some "downloaded") (some "/p") [] (fun _ => .success) 3 5 "/t").attempts
      = 1
    ∧ (brDownloadResource (some "downloaded") (some "/p") [] (fun _ => .success) 3 5 "/t").status
      = "downloaded" := ⟨rfl, rfl⟩

/-- C6 amended: with a stored terminal-success status, AR's
`download_resource` returns that stored status immediately with zero
network attempts; BR's returns it immediately only when the stored
local path is non-empty and still exists on disk — otherwise it
re-enters the download loop. -/
theorem c6_skip_existing (stored : String)
    (hst : stored = "downloaded" ∨ stored = "skipped_exists")
    (p target : String) (hp : ¬p = "") (disk : List String) (hdisk : disk.contains p = true)
    (outB outA : Nat → NetOutcome) (maxR base : Nat) :
    brDownloadResource (some stored) (some p) disk outB maxR base target
      = ⟨stored, 0, [], disk⟩
    ∧ arDownloadResource (some stored) disk outA maxR base target
      = ⟨stored, 0, [], disk⟩ := by
  have hcond : ((some stored == some "downloaded")
      || (some stored == some "skipped_exists")) = true := by
    rcases hst with h | h <;> simp [h]
  have hpe : p.isEmpty = false := by
    cases hpe : p.isEmpty
    · rfl
    · exact absurd ((String.isEmpty_iff p).mp hpe) hp
  have hifc : (truthy (some p) && disk.contains p) = true := by
    rw [Bool.and_eq_true]
    exact ⟨by simp [truthy, hpe], hdisk⟩
  constructor
  · unfold brDownloadResource
    rw [if_pos hcond]
    show (if (truthy (some p) && disk.contains p) = true
        then (⟨stored, 0, [], disk⟩ : LoopResult)
        else brDownloadLoop outB maxR base target disk) = ⟨stored, 0, [], disk⟩
    rw [if_pos hifc]
  · unfold arDownloadResource
    rw [if_pos hcond]
    rfl

/-- Witness for `c6_skip_existing`: stored status `downloaded` at path
`/p` which exists on disk. -/
theorem c6_skip_existing_witness :
    brDownloadResource (some "downloaded") (some "/p") ["/p"] (fun _ => .timeout) 3 5 "/t"
      = ⟨"downloaded", 0, [], ["/p"]⟩
    ∧ arDownloadResource (some "downloaded") ["/p"] (fun _ => .timeout) 3 5 "/t"
      = ⟨"downloaded", 0, [], ["/p"]⟩ :=
  c6_skip_existing "downloaded" (Or.inl rfl) "/p" "/t" (by decide) ["/p"] (by decide)
    (fun _ => .timeout) (fun _ => .timeout) 3 5

/-- If a failing or exhausted download loop is entered in a state where
a non-success status implies the target is absent, the final state
keeps that implication: every failure path erases the partial file
before retrying or returning. -/
theorem downloadLoop_no_partial (so : NetOutcome → String) (t4 : Nat → Bool)
    (ss : String) (out : Nat → NetOutcome) (base : Nat) (target : String) :
    ∀ (remaining attempt : Nat) (st : String) (delays : List Nat) (disk : List String),
      (st ≠ ss → ¬ target ∈ disk) →
      ((downloadLoop so t4 ss out base target remaining attempt st delays disk).status ≠ ss →
        ¬ target ∈ (downloadLoop so t4 ss out base target remaining attempt st delays disk).disk) := by
  intro remaining
  induction remaining with
  | zero => intro attempt st delays disk hentry; exact hentry
  | succ n ih =>
    intro attempt st delays disk hentry
    rw [downloadLoop]
    cases hout : out attempt with
    | success => intro h; exact absurd rfl h
    | timeout =>
      exact ih (attempt + 1) (so .timeout)
        (if attempt > 0 then delays ++ [base * 2 ^ (attempt - 1)] else delays)
        (fsErase disk target) (fun _ => by simp [fsErase])
    | httpError c =>
      by_cases ht : t4 c = true
      · simp only [ht, if_pos]
        intro _
        simp [fsErase]
      · simp only [ht]
        simp only [Bool.false_eq_true, if_neg, if_false]
        exact ih (attempt + 1) (so (.httpError c))
          (if attempt > 0 then delays ++ [base * 2 ^ (attempt - 1)] else delays)
          (fsErase disk target) (fun _ => by simp [fsErase])
    | netError =>
      exact ih (attempt + 1) (so .netError)
        (if attempt > 0 then delays ++ [base * 2 ^ (attempt - 1)] else delays)
        (fsErase disk target) (fun _ => by simp [fsErase])
    | exn =>
      intro _
      simp [fsErase]

/-- The attempt loop entered with at least one attempt allowed leaves
no file at the target path whenever it ends in a non-success status. -/
theorem downloadLoop_pos_no_partial (so : NetOutcome → String) (t4 : Nat → Bool)
    (ss : String) (out : Nat → NetOutcome) (base : Nat) (target : String)
    (n attempt : Nat) (st : String) (delays : List Nat) (disk : List String) :
    (downloadLoop so t4 ss out base target (n + 1) attempt st delays disk).status ≠ ss →
      ¬ target ∈ (downloadLoop so t4 ss out base target (n + 1) attempt st delays disk).disk := by
  rw [downloadLoop]
  cases hout : out attempt with
  | success => intro h; exact absurd rfl h
  | timeout =>
    exact downloadLoop_no_partial so t4 ss out base target n (attempt + 1) (so .timeout)
      (if attempt > 0 then delays ++ [base * 2 ^ (attempt - 1)] else delays)
      (fsErase disk target) (fun _ => by simp [fsErase])
  | httpError c =>
    by_cases ht : t4 c = true
    · simp only [ht, if_pos]
      intro _
      simp [fsErase]
    · simp only [ht]
      simp only [Bool.false_eq_true, if_neg, if_false]
      exact downloadLoop_no_partial so t4 ss out base target n (attempt + 1)
        (so (.httpError c))
        (if attempt > 0 then delays ++ [base * 2 ^ (attempt - 1)] else delays)
        (fsErase disk target) (fun _ => by simp [fsErase])
  | netError =>
    exact downloadLoop_no_partial so t4 ss out base target n (attempt + 1) (so .netError)
      (if attempt > 0 then delays ++ [base * 2 ^ (attempt - 1)] else delays)
      (fsErase disk target) (fun _ => by simp [fsErase])
  | exn =>
    intro _
    simp [fsErase]

/-- C7: after any download call ending in a status other than the
successes `downloaded` / `skipped_exists`, no file remains at the
derived target path — the partial file was deleted before every retry
and return, in both the BR and AR downloader. -/
theorem c7_no_partial_file_after_failure
    (priorStB priorPathB priorStA : Option String) (diskB diskA : List String)
    (outB outA : Nat → NetOutcome) (maxRB baseB maxRA baseA : Nat) (targetB targetA : String)
    (hfailB : (brDownloadResource priorStB priorPathB diskB outB maxRB baseB targetB).status
        ≠ "downloaded"
      ∧ (brDownloadResource priorStB priorPathB diskB outB maxRB baseB targetB).status
        ≠ "skipped_exists")
    (hfailA : (arDownloadResource priorStA diskA outA maxRA baseA targetA).status
        ≠ "downloaded"
      ∧ (arDownloadResource priorStA diskA outA maxRA baseA targetA).status
        ≠ "skipped_exists") :
    ¬ targetB ∈ (brDownloadResource priorStB priorPathB diskB outB maxRB baseB targetB).disk
    ∧ ¬ targetA ∈ (arDownloadResource priorStA diskA outA maxRA baseA targetA).disk := by
  constructor
  · unfold brDownloadResource at hfailB ⊢
    by_cases hcond : ((priorStB == some "downloaded")
        || (priorStB == some "skipped_exists")) = true
    · rw [if_pos hcond] at hfailB ⊢
      cases priorStB with
      | none => simp at hcond
      | some st =>
        have hst : st = "downloaded" ∨ st = "skipped_exists" := by
          rcases Bool.or_eq_true_iff.mp hcond with h | h
          · exact Or.inl (by simpa using h)
          · exact Or.inr (by simpa using h)
        cases priorPathB with
        | none =>
          exact downloadLoop_pos_no_partial brStatusOf brTerminal4xx "downloaded" outB baseB
            targetB maxRB 0 "pending" [] diskB hfailB.1
        | some p =>
          by_cases hskip : (truthy (some p) && diskB.contains p) = true
          · simp only [hskip, if_true] at hfailB ⊢
            rcases hst with h | h
            · exact absurd h hfailB.1
            · exact absurd h hfailB.2
          · simp only [hskip, if_false, Bool.false_eq_true] at hfailB ⊢
            exact downloadLoop_pos_no_partial brStatusOf brTerminal4xx "downloaded" outB baseB
              targetB maxRB 0 "pending" [] diskB hfailB.1
    · rw [if_neg hcond] at hfailB ⊢
      exact downloadLoop_pos_no_partial brStatusOf brTerminal4xx "downloaded" outB baseB
        targetB maxRB 0 "pending" [] diskB hfailB.1
  · unfold arDownloadResource at hfailA ⊢
    by_cases hcond : ((priorStA == some "downloaded")
        || (priorStA == some "skipped_exists")) = true
    · rw [if_pos hcond] at hfailA ⊢
      cases priorStA with
      | none => simp at hcond
      | some st =>
        have hst : st = "downloaded" ∨ st = "skipped_exists" := by
          rcases Bool.or_eq_true_iff.mp hcond with h | h
          · exact Or.inl (by simpa using h)
          · exact Or.inr (by simpa using h)
        rcases hst with h | h
        · exact absurd (by simp [h]) hfailA.1
        · exact absurd (by simp [h]) hfailA.2
    · rw [if_neg hcond] at hfailA ⊢
      by_cases hex : diskA.contains targetA = true
      · rw [if_pos hex] at hfailA ⊢
        exact absurd rfl hfailA.2
      · rw [if_neg hex] at hfailA ⊢
        exact downloadLoop_pos_no_partial arStatusOf arTerminal4xx "downloaded" outA baseA
          targetA maxRA 0 "pending" [] diskA hfailA.1

/-- Witness for `c7_no_partial_file_after_failure`: no prior result,
an all-timeout network, and the target initially present on neither
disk nor produced by the failing run. -/
theorem c7_no_partial_file_after_failure_witness :
    ¬ "/t" ∈ (brDownloadResource none none ["/other"] (fun _ => .timeout) 1 5 "/t").disk
    ∧ ¬ "/a" ∈ (arDownloadResource none ["/x"] (fun _ => .httpError 404) 2 5 "/a").disk :=
  c7_no_partial_file_after_failure none none none ["/other"] ["/x"]
    (fun _ => .timeout) (fun _ => .httpError 404) 1 5 2 5 "/t" "/a"
    ⟨by decide, by decide⟩ ⟨by decide, by decide⟩

/-- A parseable OAI record used by the C3 scenario. -/
def c3RecordBR : OAIRecordBR := ⟨some ⟨some "oai:rec", false⟩, false, []⟩

/-- A BR server that answers every request with one record and the same
resumption token `T`. -/
def c3ConstServerBR : Option String → OAIPageBR := fun _ => ⟨[c3RecordBR], some "T"⟩

/-- C3 counterexample: on a server that returns the identical token `T`
on every page, BR's `harvest_repository` does not stop after the second
occurrence — after 10 granted requests the loop is still running (and,
as `c3_harvest_loop_guard` shows, it never stops).  The claimed
anti-loop guard does not exist in BR. -/
theorem c3_br_identical_token_no_stop :
    harvestBR c3ConstServerBR none "repo" 10 ItemsBR.empty = none := by decide

/-- Without a record limit the AR header loop never takes the
`max_records` early return. -/
theorem processHeadersAR_none_not_early :
    ∀ (hs : List OAIHeader) (ids : List String), (processHeadersAR none ids hs).2 = false := by
  intro hs
  induction hs with
  | nil => intro ids; rfl
  | cons h rest ih =>
    intro ids
    cases hid : h.identifier with
    | none => simp [processHeadersAR, hid, ih]
    | some v => simp [processHeadersAR, hid, maxReachedAR, ih]

/-- AR stops after the second occurrence of an identical token: on a
server always answering with an error-free page carrying at least one
header and the same nonempty token `t`, `get_identifiers` returns after
exactly 2 requests. -/
theorem getIdentifiersAR_const_token (server : Option String → OAIPageAR) (t : String)
    (herr : ∀ tok, (server tok).error = none)
    (hhd : ∀ tok, (server tok).headers ≠ [])
    (htk : ∀ tok, (server tok).token = some t)
    (hne : t.isEmpty = false) (fuel : Nat) :
    ∃ ids, getIdentifiersAR server none (fuel + 2) = some (ids, 2) := by
  unfold getIdentifiersAR
  rw [getIdentifiersARAux]
  rcases hp1 : processHeadersAR none [] (server none).headers with ⟨ids1, e1⟩
  have he1 : e1 = false := by
    have := processHeadersAR_none_not_early (server none).headers []
    rw [hp1] at this
    exact this
  subst he1
  simp only [herr none, Option.isSome_none, Bool.false_eq_true, if_false,
    List.isEmpty_eq_true, hhd none, if_neg (hhd none), hp1, htk none, hne, if_false]
  rw [if_neg (by simp : ¬(some t == (none : Option String)) = true)]
  rw [getIdentifiersARAux]
  rcases hp2 : processHeadersAR none ids1 (server (some t)).headers with ⟨ids2, e2⟩
  have he2 : e2 = false := by
    have := processHeadersAR_none_not_early (server (some t)).headers ids1
    rw [hp2] at this
    exact this
  subst he2
  simp only [herr (some t), Option.isSome_none, Bool.false_eq_true, if_false,
    List.isEmpty_eq_true, if_neg (hhd (some t)), hp2, htk (some t), hne, if_false]
  rw [if_pos (by simp : (some t == some t) = true)]
  exact ⟨ids2, rfl⟩

/-- AR stops after one request when the first page carries no token or
an empty one (and at least one header, no error). -/
theorem getIdentifiersAR_no_token (server : Option String → OAIPageAR)
    (herr : (server none).error = none) (hhd : (server none).headers ≠ [])
    (htk : (server none).token = none ∨ (server none).token = some "") (fuel : Nat) :
    ∃ ids, getIdentifiersAR server none (fuel + 1) = some (ids, 1) := by
  unfold getIdentifiersAR
  rw [getIdentifiersARAux]
  rcases hp1 : processHeadersAR none [] (server none).headers with ⟨ids1, e1⟩
  have he1 : e1 = false := by
    have := processHeadersAR_none_not_early (server none).headers []
    rw [hp1] at this
    exact this
  subst he1
  simp only [herr, Option.isSome_none, Bool.false_eq_true, if_false,
    List.isEmpty_eq_true, if_neg hhd, hp1]
  rcases htk with h | h
  · rw [h]
    exact ⟨ids1, rfl⟩
  · rw [h]
    have he : ("" : String).isEmpty = true := by decide
    exact ⟨ids1, by simp [he]⟩

/-- BR stops after one request when the first page carries no token or
a whitespace-only one. -/
theorem harvestBR_no_token (server : Option String → OAIPageBR) (maxR : Option Nat)
    (repo : String) (db : ItemsBR)
    (htk : (server none).token = none
      ∨ ∃ s, (server none).token = some s ∧ (pyStrip s).isEmpty = true) (fuel : Nat) :
    ∃ db', harvestBR server maxR repo (fuel + 1) db = some (db', 1) := by
  unfold harvestBR
  rw [harvestBRAux]
  by_cases hemp : ((server none).records.isEmpty && true) = true
  · rw [if_pos hemp]
    exact ⟨db, rfl⟩
  · rw [if_neg hemp]
    rcases hpr : processRecordsBR repo maxR db 0 (server none).records with ⟨db1, t1⟩
    by_cases hmax : maxReachedBR maxR t1 = true
    · simp only [hpr, hmax, if_pos]
      exact ⟨db1, rfl⟩
    · simp only [hpr, hmax, Bool.false_eq_true, if_false, if_neg]
      rcases htk with h | ⟨s, hs, hse⟩
      · rw [h]
        exact ⟨db1, rfl⟩
      · rw [hs]
        simp only [hse, if_pos]
        exact ⟨db1, rfl⟩

/-- BR has no identical-token guard: on a server whose every page has
records and the same non-whitespace token, the harvest loop never
terminates, exhausting any amount of fuel. -/
theorem harvestBR_const_token_diverges (server : Option String → OAIPageBR) (t : String)
    (repo : String) (htk : ∀ tok, (server tok).token = some t)
    (hne : ((pyStrip t)).isEmpty = false) (hrec : ∀ tok, (server tok).records ≠ []) :
    ∀ (fuel : Nat) (token : Option String) (firstReq : Bool) (db : ItemsBR)
      (total reqs : Nat),
      harvestBRAux server none repo fuel token firstReq db total reqs = none := by
  intro fuel
  induction fuel with
  | zero => intro token firstReq db total reqs; rfl
  | succ n ih =>
    intro token firstReq db total reqs
    rw [harvestBRAux]
    have hemp : (server token).records.isEmpty = false := by
      cases hr : (server token).records with
      | nil => exact absurd hr (hrec token)
      | cons a l => rfl
    rw [hemp]
    simp only [Bool.false_and, Bool.false_eq_true, if_false]
    rcases hpr : processRecordsBR repo none db total (server token).records with ⟨db1, t1⟩
    simp only [hpr, maxReachedBR, Bool.false_eq_true, if_false, htk token, hne]
    exact ih (some (pyStrip t)) false db1 t1 (reqs + 1)

/-- C3 amended: the harvest loops stop on an absent or syntactically
empty resumption token, and AR's `get_identifiers` stops after the
second occurrence of an identical token (two requests in all); but
BR's `harvest_repository` has no identical-token guard and never
terminates against a server that repeats the same token with records
on every page. -/
theorem c3_harvest_loop_guard
    (serverA serverA0 : Option String → OAIPageAR) (serverB serverB0 : Option String → OAIPageBR)
    (t : String) (repo : String) (db db0 : ItemsBR) (maxR : Option Nat) (fuel : Nat)
    (herrA : ∀ tok, (serverA tok).error = none) (hhdA : ∀ tok, (serverA tok).headers ≠ [])
    (htkA : ∀ tok, (serverA tok).token = some t) (hneA : t.isEmpty = false)
    (herrA0 : (serverA0 none).error = none) (hhdA0 : (serverA0 none).headers ≠ [])
    (htkA0 : (serverA0 none).token = none ∨ (serverA0 none).token = some "")
    (htkB0 : (serverB0 none).token = none
      ∨ ∃ s, (serverB0 none).token = some s ∧ (pyStrip s).isEmpty = true)
    (htkB : ∀ tok, (serverB tok).token = some t) (hneB : ((pyStrip t)).isEmpty = false)
    (hrecB : ∀ tok, (serverB tok).records ≠ []) :
    (∃ ids, getIdentifiersAR serverA none (fuel + 2) = some (ids, 2))
    ∧ (∃ ids, getIdentifiersAR serverA0 none (fuel + 1) = some (ids, 1))
    ∧ (∃ db', harvestBR serverB0 maxR repo (fuel + 1) db0 = some (db', 1))
    ∧ harvestBR serverB none repo fuel db = none :=
  ⟨getIdentifiersAR_const_token serverA t herrA hhdA htkA hneA fuel,
   getIdentifiersAR_no_token serverA0 herrA0 hhdA0 htkA0 fuel,
   harvestBR_no_token serverB0 maxR repo db0 htkB0 fuel,
   harvestBR_const_token_diverges serverB t repo htkB hneB hrecB fuel none true db 0 0⟩

/-- An AR server always answering one live header and token `T`. -/
def c3ServerA : Option String → OAIPageAR := fun _ => ⟨none, [⟨some "id1", false⟩], some "T"⟩

/-- An AR server answering one live header and no token. -/
def c3ServerA0 : Option String → OAIPageAR := fun _ => ⟨none, [⟨some "id1", false⟩], none⟩

/-- A BR server answering one record and no token. -/
def c3ServerB0 : Option String → OAIPageBR := fun _ => ⟨[c3RecordBR], none⟩

/-- Witness for `c3_harvest_loop_guard` on the concrete constant-token
and no-token servers. -/
theorem c3_harvest_loop_guard_witness :
    (∃ ids, getIdentifiersAR c3ServerA none (3 + 2) = some (ids, 2))
    ∧ (∃ ids, getIdentifiersAR c3ServerA0 none (3 + 1) = some (ids, 1))
    ∧ (∃ db', harvestBR c3ServerB0 none "repo" (3 + 1) ItemsBR.empty = some (db', 1))
    ∧ harvestBR c3ConstServerBR none "repo" 3 ItemsBR.empty = none :=
  c3_harvest_loop_guard c3ServerA c3ServerA0 c3ConstServerBR c3ServerB0 "T" "repo"
    ItemsBR.empty ItemsBR.empty none 3
    (fun _ => rfl) (fun _ => List.cons_ne_nil _ _)
    (fun _ => rfl) (by decide)
    rfl (List.cons_ne_nil _ _) (Or.inl rfl)
    (Or.inl rfl)
    (fun _ => rfl) (by decide)
    (fun _ => List.cons_ne_nil _ _)

/-- A record whose header carries `status="deleted"` (and no metadata
section), as an OAI server would report a withdrawn item. -/
def c5DeletedRecord : OAIRecordBR := ⟨some ⟨some "oai:del:1", true⟩, false, []⟩

/-- A BR server answering one deleted record and no token. -/
def c5ServerBR : Option String → OAIPageBR := fun _ => ⟨[c5DeletedRecord], none⟩

/-- C5 counterexample: harvesting a single record marked
`status="deleted"` through BR's `harvest_repository` creates an Item
row for it — the BR parser never reads the deleted flag, so the record
is upserted like any other. -/
theorem c5_br_deleted_record_upserted :
    (harvestBR c5ServerBR none "repo" 3 ItemsBR.empty).map
        (fun r => r.1.rows.map (fun q => (q.oai_identifier, q.processing_status)))
      = some [(some "oai:del:1", "pending_pdf_link")] := by decide

/-- Flip the deleted flag of a record's header. -/
def setRecordDeleted (r : OAIRecordBR) (b : Bool) : OAIRecordBR :=
  { r with header := r.header.map (fun h => { h with deleted := b }) }

/-- Identifiers produced by the AR header loop either were already
accumulated or come from a non-deleted header of the batch. -/
theorem processHeadersAR_mem (maxR : Option Nat) :
    ∀ (hs : List OAIHeader) (ids : List String) (x : String),
      x ∈ (processHeadersAR maxR ids hs).1 →
      x ∈ ids ∨ ∃ h ∈ hs, h.identifier = some x ∧ h.deleted = false := by
  intro hs
  induction hs with
  | nil => intro ids x hx; exact Or.inl hx
  | cons h rest ih =>
    intro ids x hx
    cases hid : h.identifier with
    | none =>
      have heq : processHeadersAR maxR ids (h :: rest) = processHeadersAR maxR ids rest := by
        simp [processHeadersAR, hid]
      rw [heq] at hx
      rcases ih ids x hx with hl | ⟨h', hh', hp⟩
      · exact Or.inl hl
      · exact Or.inr ⟨h', List.mem_cons_of_mem h hh', hp⟩
    | some v =>
      cases hdel : h.deleted with
      | true =>
        by_cases hmax : maxReachedAR maxR ids.length = true
        · have heq : processHeadersAR maxR ids (h :: rest) = (ids, true) := by
            simp [processHeadersAR, hid, hdel, hmax]
          rw [heq] at hx
          exact Or.inl hx
        · have heq : processHeadersAR maxR ids (h :: rest)
              = processHeadersAR maxR ids rest := by
            simp [processHeadersAR, hid, hdel, hmax]
          rw [heq] at hx
          rcases ih ids x hx with hl | ⟨h', hh', hp⟩
          · exact Or.inl hl
          · exact Or.inr ⟨h', List.mem_cons_of_mem h hh', hp⟩
      | false =>
        have hmem : ∀ y, y ∈ ids ++ [v] →
            y ∈ ids ∨ ∃ h' ∈ h :: rest, h'.identifier = some y ∧ h'.deleted = false := by
          intro y hy
          rcases List.mem_append.mp hy with hl | hr
          · exact Or.inl hl
          · have hyv : y = v := by simpa using hr
            subst hyv
            exact Or.inr ⟨h, List.mem_cons_self h rest, hid, hdel⟩
        by_cases hmax : maxReachedAR maxR (ids.length + 1) = true
        · have heq : processHeadersAR maxR ids (h :: rest) = (ids ++ [v], true) := by
            simp [processHeadersAR, hid, hdel, hmax]
          rw [heq] at hx
          exact hmem x hx
        · have heq : processHeadersAR maxR ids (h :: rest)
              = processHeadersAR maxR (ids ++ [v]) rest := by
            simp [processHeadersAR, hid, hdel, hmax]
          rw [heq] at hx
          rcases ih (ids ++ [v]) x hx with hl | ⟨h', hh', hp⟩
          · exact hmem x hl
          · exact Or.inr ⟨h', List.mem_cons_of_mem h hh', hp⟩

/-- Identifiers returned by the AR pagination loop either were already
accumulated or come from a non-deleted header of some served page. -/
theorem getIdentifiersARAux_mem (server : Option String → OAIPageAR) (maxR : Option Nat) :
    ∀ (fuel : Nat) (token : Option String) (ids : List String) (reqs : Nat)
      (out : List String × Nat),
      getIdentifiersARAux server maxR fuel token ids reqs = some out →
      ∀ x ∈ out.1, x ∈ ids
        ∨ ∃ tok h, h ∈ (server tok).headers ∧ h.identifier = some x ∧ h.deleted = false := by
  intro fuel
  induction fuel with
  | zero => intro token ids reqs out heq; exact absurd heq (by simp [getIdentifiersARAux])
  | succ n ih =>
    intro token ids reqs out heq x hx
    rw [getIdentifiersARAux] at heq
    by_cases herr : (server token).error.isSome = true
    · rw [if_pos herr] at heq
      obtain rfl : (ids, reqs + 1) = out := Option.some.inj heq
      exact Or.inl hx
    · rw [if_neg herr] at heq
      by_cases hemp : (server token).headers.isEmpty = true
      · rw [if_pos hemp] at heq
        cases htok : (server token).token with
        | none =>
          simp only [htok] at heq
          obtain rfl : (ids, reqs + 1) = out := Option.some.inj heq
          exact Or.inl hx
        | some t =>
          simp only [htok] at heq
          by_cases hte : t.isEmpty = true
          · rw [if_pos hte] at heq
            obtain rfl : (ids, reqs + 1) = out := Option.some.inj heq
            exact Or.inl hx
          · rw [if_neg hte] at heq
            exact ih (some t) ids (reqs + 1) out heq x hx
      · rw [if_neg hemp] at heq
        rcases hph : processHeadersAR maxR ids (server token).headers with ⟨ids', early⟩
        simp only [hph] at heq
        have hids' : ∀ y, y ∈ ids' → y ∈ ids
            ∨ ∃ tok h, h ∈ (server tok).headers ∧ h.identifier = some y ∧ h.deleted = false := by
          intro y hy
          have hy' : y ∈ (processHeadersAR maxR ids (server token).headers).1 := by
            rw [hph]; exact hy
          rcases processHeadersAR_mem maxR (server token).headers ids y hy' with hl | ⟨h, hh, hp⟩
          · exact Or.inl hl
          · exact Or.inr ⟨token, h, hh, hp⟩
        cases early with
        | true =>
          simp only [if_true] at heq
          obtain rfl : (ids', reqs + 1) = out := Option.some.inj heq
          exact hids' x hx
        | false =>
          simp only [Bool.false_eq_true, if_false] at heq
          cases htok : (server token).token with
          | none =>
            simp only [htok] at heq
            obtain rfl : (ids', reqs + 1) = out := Option.some.inj heq
            exact hids' x hx
          | some t =>
            simp only [htok] at heq
            by_cases hte : t.isEmpty = true
            · rw [if_pos hte] at heq
              obtain rfl : (ids', reqs + 1) = out := Option.some.inj heq
              exact hids' x hx
            · rw [if_neg hte] at heq
              by_cases hsame : (some t == token) = true
              · rw [if_pos hsame] at heq
                obtain rfl : (ids', reqs + 1) = out := Option.some.inj heq
                exact hids' x hx
              · rw [if_neg hsame] at heq
                rcases ih (some t) ids' (reqs + 1) out heq x hx with hl | hr
                · exact hids' x hl
                · exact Or.inr hr

/-- C5 amended: a header with `status="deleted"` contributes no
identifier to AR's `get_identifiers` — every returned identifier comes
from a non-deleted header of some served page, so only live records
reach the upsert stage; BR's `_parse_record` instead never reads the
deleted flag — parsing is invariant under flipping it — and so (as the
counterexample shows) BR upserts deleted records like any others. -/
theorem c5_deleted_records_skipped (server : Option String → OAIPageAR) (maxR : Option Nat)
    (fuel : Nat) (ids : List String) (reqs : Nat)
    (hrun : getIdentifiersAR server maxR fuel = some (ids, reqs)) :
    (∀ x ∈ ids, ∃ tok h, h ∈ (server tok).headers ∧ h.identifier = some x
      ∧ h.deleted = false)
    ∧ ∀ (r : OAIRecordBR) (b : Bool), parseRecordBR (setRecordDeleted r b) = parseRecordBR r := by
  constructor
  · intro x hx
    rcases getIdentifiersARAux_mem server maxR fuel none [] 0 (ids, reqs) hrun x hx with hl | hr
    · exact absurd hl (List.not_mem_nil x)
    · exact hr
  · intro r b
    cases hh : r.header with
    | none => simp [parseRecordBR, setRecordDeleted, hh]
    | some h =>
      cases hid : h.identifier with
      | none => simp [parseRecordBR, setRecordDeleted, hh, hid]
      | some v => simp [parseRecordBR, setRecordDeleted, hh, hid]

/-- An AR server with one live and one deleted header on its only page. -/
def c5ServerAR : Option String → OAIPageAR :=
  fun _ => ⟨none, [⟨some "live", false⟩, ⟨some "gone", true⟩], none⟩

/-- Witness for `c5_deleted_records_skipped`: the AR harvest of
`c5ServerAR` returns exactly the live identifier, and each returned
identifier is traced to a non-deleted header. -/
theorem c5_deleted_records_skipped_witness :
    (∀ x ∈ ["live"], ∃ tok h, h ∈ (c5ServerAR tok).headers ∧ h.identifier = some x
      ∧ h.deleted = false)
    ∧ ∀ (r : OAIRecordBR) (b : Bool), parseRecordBR (setRecordDeleted r b) = parseRecordBR r :=
  c5_deleted_records_skipped c5ServerAR none 3 ["live"] 1 (by decide)

/-- Handling one item writes only that item's own status row, and the
value written depends only on that item's behavior. -/
theorem processItemAR_apply (behavior : Nat → ItemBehavior) (st : ItemStatuses)
    (i j : Nat) :
    processItemAR behavior st i j
      = if j == i then expectedStatusAR (behavior i) else st j := by
  unfold processItemAR expectedStatusAR setStatus
  cases behavior i with
  | metaNone => by_cases hj : (j == i) = true <;> simp [hj]
  | raises => by_cases hj : (j == i) = true <;> simp [hj]
  | meta rs =>
    by_cases hcf : rs.any criticalFailure = true <;>
      by_cases hj : (j == i) = true <;> simp [hcf, hj]

/-- Items outside the batch keep their status. -/
theorem runBatchAR_not_mem (behavior : Nat → ItemBehavior) :
    ∀ (items : List Nat) (st : ItemStatuses) (j : Nat), j ∉ items →
      runBatchAR behavior st items j = st j := by
  intro items
  induction items with
  | nil => intro st j _; rfl
  | cons i rest ih =>
    intro st j hj
    have hji : j ≠ i := fun h => hj (h ▸ List.mem_cons_self i rest)
    have hjr : j ∉ rest := fun h => hj (List.mem_cons_of_mem i h)
    show runBatchAR behavior (processItemAR behavior st i) rest j = st j
    rw [ih (processItemAR behavior st i) j hjr, processItemAR_apply]
    simp [hji]

/-- C9: in the `Scraper.run` item loop, each processed item ends in the
terminal status determined by its own behavior alone — an uncaught
exception in one item is caught at the item boundary and recorded as
`error` for that item, while every other item of the batch still
reaches the terminal status its own resolution and downloads dictate,
so one item's failure neither aborts the batch nor changes the other
items' outcomes. -/
theorem c9_item_error_isolated (behavior : Nat → ItemBehavior) (st : ItemStatuses)
    (items : List Nat) (j : Nat) (hj : j ∈ items) :
    runBatchAR behavior st items j = expectedStatusAR (behavior j)
    ∧ (behavior j = .raises → runBatchAR behavior st items j = "error") := by
  have key : ∀ (items' : List Nat) (st' : ItemStatuses), j ∈ items' →
      runBatchAR behavior st' items' j = expectedStatusAR (behavior j) := by
    intro items'
    induction items' with
    | nil => intro st' hmem; exact absurd hmem (List.not_mem_nil j)
    | cons i rest ih =>
      intro st' hmem
      show runBatchAR behavior (processItemAR behavior st' i) rest j = _
      by_cases hjr : j ∈ rest
      · exact ih (processItemAR behavior st' i) hjr
      · have hji : j = i := by
          rcases List.mem_cons.mp hmem with h | h
          · exact h
          · exact absurd h hjr
        subst hji
        rw [runBatchAR_not_mem behavior rest (processItemAR behavior st' j) j hjr,
          processItemAR_apply]
        simp
  refine ⟨key items st hj, ?_⟩
  intro hra
  rw [key items st hj, hra]
  rfl

/-- Witness for `c9_item_error_isolated`, mirroring the spec's
five-item scenario: of items 1..5 where item 3's handling raises,
item 3 alone ends `error` and item 4 (processed after the failure)
still ends `processed`. -/
theorem c9_item_error_isolated_witness :
    (runBatchAR
        (fun i => if i == 3 then .raises else .meta [("pdf", "downloaded")])
        (fun _ => "pending_download") [1, 2, 3, 4, 5] 3
      = expectedStatusAR ((fun i : Nat =>
          if i == 3 then ItemBehavior.raises
          else .meta [("pdf", "downloaded")]) 3)
      ∧ ((fun i : Nat => if i == 3 then ItemBehavior.raises
            else .meta [("pdf", "downloaded")]) 3 = .raises →
          runBatchAR
            (fun i => if i == 3 then .raises else .meta [("pdf", "downloaded")])
            (fun _ => "pending_download") [1, 2, 3, 4, 5] 3 = "error"))
    ∧ (runBatchAR
        (fun i => if i == 3 then .raises else .meta [("pdf", "downloaded")])
        (fun _ => "pending_download") [1, 2, 3, 4, 5] 4
      = expectedStatusAR ((fun i : Nat =>
          if i == 3 then ItemBehavior.raises
          else .meta [("pdf", "downloaded")]) 4)
      ∧ ((fun i : Nat => if i == 3 then ItemBehavior.raises
            else .meta [("pdf", "downloaded")]) 4 = .raises →
          runBatchAR
            (fun i => if i == 3 then .raises else .meta [("pdf", "downloaded")])
            (fun _ => "pending_download") [1, 2, 3, 4, 5] 4 = "error")) :=
  ⟨c9_item_error_isolated
      (fun i => if i == 3 then .raises else .meta [("pdf", "downloaded")])
      (fun _ => "pending_download") [1, 2, 3, 4, 5] 3 (by decide),
   c9_item_error_isolated
      (fun i => if i == 3 then .raises else .meta [("pdf", "downloaded")])
      (fun _ => "pending_download") [1, 2, 3, 4, 5] 4 (by decide)⟩

end Scraper
